import Mathlib

/-!
# Globalping CLI: the process set-up in `cmd/root.go`

A shallow embedding of `cmd.Execute`, `cmd.NewRoot`, `cmd.wrappedFlagUsages`,
`cmd.RunVersion` and `main.main`.

Machine integers are `Int` with explicit two's-complement wrapping where the
code can overflow.  Effects (printing, saving the configuration, leaving the
process) are recorded as explicit results.
-/

namespace Globalping

/-! ## Go `time`: wall-clock instants -/

/-- The constant `math.MaxInt64`. -/
def maxInt64 : Int := 9223372036854775807

/-- Two's-complement wrap of an integer into the `int64` range. -/
def wrap64 (x : Int) : Int :=
  (x + 9223372036854775808) % 18446744073709551616 - 9223372036854775808

/-- A `time.Time` carrying a wall-clock reading only: `sec` is the `int64`
count of seconds since January 1 of year 1 and `nsec` the nanoseconds within
the second, in `[0, 999999999]`.  `time.Now().Add(math.MaxInt64)` is such a
value: the addition takes the monotonic reading out of range, so Go drops it
and later comparisons with it use the wall clock. -/
structure Time where
  sec : Int
  nsec : Int
deriving DecidableEq, Repr

/-- The method `(*Time).addSec` of Go on the `int64` second count: the sum
saturates instead of wrapping. -/
def addSec (ext d : Int) : Int :=
  let sum := wrap64 (ext + d)
  if decide (sum > ext) = decide (d > 0) then sum
  else if d > 0 then maxInt64
  else -maxInt64

/-- The method `Time.Add` of Go, `d` being a `time.Duration` (an `int64`
count of nanoseconds); Go's `/` and `%` truncate towards zero. -/
def Time.Add (t : Time) (d : Int) : Time :=
  let dsec := Int.tdiv d 1000000000
  let nsec := t.nsec + Int.tmod d 1000000000
  if nsec ≥ 1000000000 then
    { sec := addSec t.sec (dsec + 1), nsec := nsec - 1000000000 }
  else if nsec < 0 then
    { sec := addSec t.sec (dsec - 1), nsec := nsec + 1000000000 }
  else
    { sec := addSec t.sec dsec, nsec := nsec }

/-- The method `Time.Before` of Go on wall-clock readings. -/
def Time.Before (t u : Time) : Bool :=
  decide (t.sec < u.sec) || (decide (t.sec = u.sec) && decide (t.nsec < u.nsec))

/-! ## The data `Execute` works on -/

/-- The fields of `globalping.Token` that `Execute` sets. -/
structure Token where
  AccessToken : String
  ExpiresIn : Int
  Expiry : Time
deriving DecidableEq, Repr

/-- Modelled from the spec: the comparison of the refresh check,
"now ≥ Token.expiry"; the token store is not among the sources.  The
comparison is Go's, on wall-clock readings. -/
def expiryReached (now : Time) (token : Token) : Bool :=
  !(now.Before token.Expiry)

/-- Modelled from the spec: "the infinite-expiry pinned form" of a token; the
token store is not among the sources.  A token has no field of its own for
it: the form is the one `Execute` gives a configured token, `ExpiresIn =
math.MaxInt64`. -/
def Token.pinnedForm (token : Token) : Bool :=
  decide (token.ExpiresIn = maxInt64)

/-- Modelled from the spec: the refresh check of the token store, which is
not among the sources: before an authenticated call, "if now ≥ Token.expiry
(and the token is not the infinite-expiry pinned form), the store performs a
refresh". -/
def refreshDue (now : Time) (token : Token) : Bool :=
  expiryReached now token && !token.pinnedForm

/-- The fields of `utils.Config` that `Execute` reads. -/
structure Config where
  GlobalpingToken : String
  GlobalpingAPIURL : String
  GlobalpingAuthURL : String
  GlobalpingDashboardURL : String
  GlobalpingAuthClientID : String
  GlobalpingAuthClientSecret : String
  GlobalpingAPIInterval : Int
deriving DecidableEq, Repr

/-- The profile `localStorage.GetProfile()` returns; `Token` is a pointer in
Go, `none` standing for `nil`. -/
structure Profile where
  Token : Option Token
deriving DecidableEq, Repr

/-- The probe fields of `globalping.ProbeDetails` used under `view`. -/
structure ProbeDetails where
  Continent : String
  Country : String
  City : String
  State : String
  ASN : Int
  Network : String
deriving DecidableEq, Repr

/-- Modelled from the spec: a record of the Session History, "SessionRecord:
{ id: MeasurementID, probes: ordered sequence of ProbeDetails }"; the type
`view.HistoryItem` is not among the sources. -/
structure SessionRecord where
  id : String
  probes : List ProbeDetails
deriving DecidableEq, Repr

/-- Modelled from the spec: the Session History, "ordered sequence of
SessionRecord, capacity fixed"; the type `view.HistoryBuffer` is not among the
sources.  `records` runs from the oldest retained record to the newest. -/
structure HistoryBuffer where
  capacity : Nat
  records : List SessionRecord
deriving DecidableEq, Repr

/-- Modelled from the spec: `view.NewHistoryBuffer(size)`, not among the
sources: an empty history of the given capacity. -/
def NewHistoryBuffer (size : Nat) : HistoryBuffer :=
  { capacity := size, records := [] }

/-- Modelled from the spec: the insertion of the Session History, not among
the sources: "insertion is append-only; when full, the oldest record is
evicted on insert (ring-buffer semantics)". -/
def HistoryBuffer.Append (h : HistoryBuffer) (r : SessionRecord) : HistoryBuffer :=
  if h.records.length < h.capacity then
    { h with records := h.records ++ [r] }
  else
    { h with records := h.records.drop 1 ++ [r] }

/-- The fields of `view.Context` that the sources name; a field a struct
literal leaves out has Go's zero value. -/
structure Context where
  Cmd : String := ""
  APIMinInterval : Int := 0
  History : HistoryBuffer
  From : String := ""
  Limit : Int := 0
  CIMode : Bool := false
  ToJSON : Bool := false
  ToLatency : Bool := false
  Share : Bool := false
  Full : Bool := false
  Ipv4 : Bool := false
  Ipv6 : Bool := false
deriving DecidableEq, Repr

/-! ## `Execute`: the context and the auth token -/

/-- What `Execute` has built when it hands over to `NewRoot`: the context
and the `AuthToken` of the client configuration. -/
structure Setup where
  ctx : Context
  AuthToken : Option Token
deriving DecidableEq, Repr

/-- The set-up part of `Execute`, after the storage is initialised: `now` is
the reading of `time.Now()`, `config` the loaded configuration and `profile`
the stored profile. -/
def Execute.setup (now : Time) (config : Config) (profile : Profile) : Setup :=
  let ctx : Context :=
    { APIMinInterval := config.GlobalpingAPIInterval
      History := NewHistoryBuffer 10
      From := "world"
      Limit := 1 }
  let token : Option Token :=
    if config.GlobalpingToken ≠ "" then
      some { AccessToken := config.GlobalpingToken
             ExpiresIn := maxInt64
             Expiry := now.Add maxInt64 }
    else profile.Token
  { ctx := ctx, AuthToken := token }

/-! ## `Execute`: the auth token as a pointer -/

/-- The `globalping.Token` values allocated so far.  A `*globalping.Token` is
`none` for `nil` and `some a` for the token at index `a` of `cells`. -/
structure TokenHeap where
  cells : List Token
deriving DecidableEq, Repr

/-- The token a pointer refers to, if any. -/
def TokenHeap.deref (h : TokenHeap) : Option Nat → Option Token
  | none => none
  | some a => h.cells[a]?

/-- A pointer the program can hold: `nil`, or the address of an allocated
token. -/
def TokenHeap.valid (h : TokenHeap) : Option Nat → Bool
  | none => true
  | some a => decide (a < h.cells.length)

/-- The allocation `&globalping.Token{...}`: the new token takes the next free
address, which no earlier pointer has. -/
def TokenHeap.new (h : TokenHeap) (t : Token) : TokenHeap × Nat :=
  ({ cells := h.cells ++ [t] }, h.cells.length)

/-- The lines of `Execute` that choose the `AuthToken` of the client
configuration, on pointers: `profileToken` is the pointer `profile.Token`. -/
def Execute.authToken (now : Time) (config : Config) (heap : TokenHeap)
    (profileToken : Option Nat) : TokenHeap × Option Nat :=
  let token := profileToken
  if config.GlobalpingToken ≠ "" then
    let r := heap.new { AccessToken := config.GlobalpingToken
                        ExpiresIn := maxInt64
                        Expiry := now.Add maxInt64 }
    (r.1, some r.2)
  else (heap, token)

/-! ## The printer and the token-refresh callback -/

/-- The two output writers of `view.Printer`, each as the text written to it
so far (`Execute` passes `os.Stdout` and `os.Stderr`). -/
structure Printer where
  OutWriter : String
  ErrWriter : String
deriving DecidableEq, Repr

/-- The method `Println` of the printer on one string: the text and a newline
go to the out writer. -/
def Printer.Println (p : Printer) (s : String) : Printer :=
  { p with OutWriter := p.OutWriter ++ s ++ "\n" }

/-- The method `ErrPrintf` of the printer, on the text its format and arguments
produce: the text goes to the error writer. -/
def Printer.ErrPrintf (p : Printer) (formatted : String) : Printer :=
  { p with ErrWriter := p.ErrWriter ++ formatted }

/-- How a function of the process ends: it returns, or it leaves the process
through `os.Exit`. -/
inductive Outcome where
  | returned
  | exit (code : Int)
deriving DecidableEq, Repr

/-- The state the callback works on: the stored profile, the printer, and the
log of `SaveConfig` calls, each with the profile it found in the storage. -/
structure Process where
  profile : Profile
  printer : Printer
  saves : List Profile
deriving DecidableEq, Repr

/-- The closure `OnTokenRefresh` of `Execute`.  `SaveConfig` stands for
`localStorage.SaveConfig`, giving `none` for a nil error and the error's text
otherwise; `token` is a pointer in Go, so `none` stands for `nil`. -/
def Execute.OnTokenRefresh (SaveConfig : Profile → Option String)
    (p : Process) (token : Option Token) : Outcome × Process :=
  let p := { p with profile := { p.profile with Token := token } }
  let err := SaveConfig p.profile
  let p := { p with saves := p.saves ++ [p.profile] }
  match err with
  | some e =>
    let p := { p with
      printer := p.printer.ErrPrintf ("Error: failed to save config: " ++ e ++ "\n") }
    (Outcome.exit 1, p)
  | none => (Outcome.returned, p)

/-! ## `NewRoot`: the flags -/

/-- The value of a flag: `pflag` has boolean, string and integer flags here. -/
inductive FlagValue where
  | bool (b : Bool)
  | string (s : String)
  | int (n : Int)
deriving DecidableEq, Repr

/-- The context fields the flags of `NewRoot` point to. -/
inductive Field where
  | CIMode | From | Limit | ToJSON | ToLatency | Share | Ipv4 | Ipv6
deriving DecidableEq, Repr

/-- A registered flag: its names, its usage text, its default, and the
context field its pointer refers to. -/
structure Flag where
  Name : String
  Shorthand : String
  DefValue : FlagValue
  Usage : String
  target : Field
deriving DecidableEq, Repr

/-- Reading a context field a flag points to. -/
def Context.get (ctx : Context) : Field → FlagValue
  | .CIMode => .bool ctx.CIMode
  | .From => .string ctx.From
  | .Limit => .int ctx.Limit
  | .ToJSON => .bool ctx.ToJSON
  | .ToLatency => .bool ctx.ToLatency
  | .Share => .bool ctx.Share
  | .Ipv4 => .bool ctx.Ipv4
  | .Ipv6 => .bool ctx.Ipv6

/-- Writing a context field through a flag's pointer; a value of another type
than the field's is not stored. -/
def Context.set (ctx : Context) : Field → FlagValue → Context
  | .CIMode, .bool b => { ctx with CIMode := b }
  | .From, .string s => { ctx with From := s }
  | .Limit, .int n => { ctx with Limit := n }
  | .ToJSON, .bool b => { ctx with ToJSON := b }
  | .ToLatency, .bool b => { ctx with ToLatency := b }
  | .Share, .bool b => { ctx with Share := b }
  | .Ipv4, .bool b => { ctx with Ipv4 := b }
  | .Ipv6, .bool b => { ctx with Ipv6 := b }
  | _, _ => ctx

/-- The registration calls of `pflag` (`BoolVarP`, `StringVarP`, `IntVarP`,
`BoolVar`): `value` is stored through the pointer and the flag is added to the
set with `value` as its default. -/
def VarP (st : Context × List Flag) (target : Field) (name shorthand : String)
    (value : FlagValue) (usage : String) : Context × List Flag :=
  (st.1.set target value,
   st.2 ++ [{ Name := name, Shorthand := shorthand, DefValue := value,
              Usage := usage, target := target }])

/-- The fields of `Root` followed here, with the two flag sets `NewRoot`
fills: the persistent flags of the root command and `measurementFlags`. -/
structure Root where
  printer : Printer
  ctx : Context
  PersistentFlags : List Flag
  measurementFlags : List Flag
deriving DecidableEq, Repr

/-- The flag registrations of `NewRoot`, in source order; each default is read
from the context when the registration runs. -/
def NewRoot (printer : Printer) (ctx : Context) : Root :=
  let (ctx, persistent) := VarP (ctx, []) .CIMode "ci" "C" (.bool ctx.CIMode)
    "disable real-time terminal updates and colors, suitable for CI and scripting (default false)"
  let (ctx, m) := VarP (ctx, []) .From "from" "F" (.string ctx.From)
    "specify the probe locations as a comma-separated list; you may use:\n - names of continents, regions, countries, US states, cities, or networks\n - [@1 | first, @2 ... @-2, @-1 | last | previous] to run with the probes from previous measurements in this session\n - an ID of a previous measurement to run with its probes\n"
  let (ctx, m) := VarP (ctx, m) .Limit "limit" "L" (.int ctx.Limit)
    "define the number of probes to use"
  let (ctx, m) := VarP (ctx, m) .ToJSON "json" "J" (.bool ctx.ToJSON)
    "output results in JSON format (default false)"
  let (ctx, m) := VarP (ctx, m) .ToLatency "latency" "" (.bool ctx.ToLatency)
    "output only the latency stats; applicable only to dns, http, and ping commands (default false)"
  let (ctx, m) := VarP (ctx, m) .Share "share" "" (.bool ctx.Share)
    "print a link at the end of the results to visualize them online (default false)"
  let (ctx, m) := VarP (ctx, m) .Ipv4 "ipv4" "4" (.bool ctx.Ipv4)
    "resolve names to IPv4 addresses"
  let (ctx, m) := VarP (ctx, m) .Ipv6 "ipv6" "6" (.bool ctx.Ipv6)
    "resolve names to IPv6 addresses"
  { printer := printer, ctx := ctx, PersistentFlags := persistent, measurementFlags := m }

/-- All flags `NewRoot` registers. -/
def Root.flags (r : Root) : List Flag :=
  r.PersistentFlags ++ r.measurementFlags

/-- One flag given on the command line: `pflag` stores its value through the
pointer of the flag of that name. -/
def Root.setFlag (r : Root) (given : String × FlagValue) : Root :=
  match r.flags.find? (fun f => f.Name == given.1) with
  | some f => { r with ctx := r.ctx.set f.target given.2 }
  | none => r

/-- Parsing the flags given on the command line, in order. -/
def Root.parseFlags (r : Root) (given : List (String × FlagValue)) : Root :=
  given.foldl Root.setFlag r

/-- Whether a usage text ends in the given words. -/
def usageEndsWith (usage words : String) : Bool :=
  words.data.isSuffixOf usage.data

/-! ## `version` -/

/-- The package-level variable `version` of `main`: `"dev"`, unless the build
sets it (`buildOverride`). -/
def main.version (buildOverride : Option String) : String :=
  match buildOverride with
  | some v => v
  | none => "dev"

/-- The package `version`: its variable `Version`. -/
structure PkgVersion where
  Version : String
deriving DecidableEq, Repr

/-- The assignment `pkgversion.Version = version` of `main`. -/
def main.setVersion (buildOverride : Option String) (_pkg : PkgVersion) : PkgVersion :=
  { Version := main.version buildOverride }

/-- A `cobra.Command` as far as `initVersion` fills it. -/
structure Command where
  Use : String
  Short : String
deriving DecidableEq, Repr

/-- The method `RunVersion`: the arguments are not read. -/
def Root.RunVersion (r : Root) (pkg : PkgVersion) (_cmd : Command) (_args : List String) :
    Root :=
  { r with printer := r.printer.Println ("Globalping CLI v" ++ pkg.Version) }

/-! ## `wrappedFlagUsages` -/

/-- The function `wrappedFlagUsages`.  `GetSize` is the result of
`term.GetSize(fd)`, a width and a height or an error;
`FlagUsagesWrapped` is the method of that name of `pflag.FlagSet`. -/
def wrappedFlagUsages (GetSize : Except String (Int × Int))
    (FlagUsagesWrapped : List Flag → Int → String) (cmd : List Flag) : String :=
  let width : Int := 80
  let width : Int :=
    match GetSize with
    | .ok (termWidth, _) => termWidth
    | .error _ => width
  FlagUsagesWrapped cmd (width - 1)

/-- The column at which the claim has the usages wrapped: the terminal width
when it is known and 80 otherwise. -/
def claimedWrapColumn (GetSize : Except String (Int × Int)) : Int :=
  match GetSize with
  | .ok (termWidth, _) => termWidth
  | .error _ => 80

/-! ## The pinned token and the refresh condition -/

/-- Within the range where the second count has room, `Time.Add` of a
non-negative duration adds exactly that many nanoseconds and keeps the
nanosecond field within the second. -/
theorem Time.Add_total (t : Time) (d : Int)
    (hn0 : 0 ≤ t.nsec) (hn1 : t.nsec < 1000000000)
    (hs0 : -9223372036854775808 ≤ t.sec)
    (hd0 : 0 ≤ d) (hd1 : d ≤ 9223372036854775807)
    (hroom : t.sec + 9223372037 ≤ 9223372036854775807) :
    (t.Add d).sec * 1000000000 + (t.Add d).nsec = t.sec * 1000000000 + t.nsec + d
      ∧ 0 ≤ (t.Add d).nsec ∧ (t.Add d).nsec < 1000000000 := by
  have hdiv : Int.tdiv d 1000000000 = d / 1000000000 :=
    Int.tdiv_eq_ediv hd0 (by norm_num)
  have hmod : Int.tmod d 1000000000 = d % 1000000000 :=
    Int.tmod_eq_emod hd0 (by norm_num)
  unfold Time.Add
  simp only [hdiv, hmod]
  have hq0 : 0 ≤ d / 1000000000 := by omega
  have hq1 : d / 1000000000 ≤ 9223372036 := by omega
  have hr0 : 0 ≤ d % 1000000000 := by omega
  have hr1 : d % 1000000000 < 1000000000 := by omega
  have hdecomp : d = 1000000000 * (d / 1000000000) + d % 1000000000 := by omega
  have hadd : ∀ k : Int, 0 ≤ k → k ≤ 9223372037 → addSec t.sec k = t.sec + k := by
    intro k hk0 hk1
    unfold addSec wrap64 maxInt64
    have hw : (t.sec + k + 9223372036854775808) % 18446744073709551616
        - 9223372036854775808 = t.sec + k := by omega
    simp only [hw]
    by_cases hk : k = 0
    · subst hk; simp
    · have hkpos : k > 0 := by omega
      have hgt : t.sec + k > t.sec := by omega
      simp [hkpos, hgt]
  split_ifs with h1 h2
  · simp only []
    rw [hadd _ (by omega) (by omega)]
    refine ⟨?_, by omega, by omega⟩
    linarith
  · exfalso; omega
  · simp only []
    rw [hadd _ (by omega) (by omega)]
    refine ⟨?_, by omega, by omega⟩
    linarith

/-- On readings whose nanosecond fields lie within the second, `Before` is the
order of the total nanosecond counts. -/
theorem Time.Before_of_total_lt (t u : Time)
    (ht0 : 0 ≤ t.nsec) (ht1 : t.nsec < 1000000000)
    (hu0 : 0 ≤ u.nsec) (hu1 : u.nsec < 1000000000)
    (h : t.sec * 1000000000 + t.nsec < u.sec * 1000000000 + u.nsec) :
    t.Before u = true := by
  unfold Time.Before
  by_cases hlt : t.sec < u.sec
  · simp [hlt]
  · have heq : t.sec = u.sec := by omega
    have hns : t.nsec < u.nsec := by omega
    simp [heq, hns]

/-- Started where the second count leaves room for the addition, the expiry
`now.Add(math.MaxInt64)` is not reached at any elapsed duration below
`math.MaxInt64` nanoseconds. -/
theorem expiryReached_false_before_maxInt64 (now : Time) (tok : Token) (d : Int)
    (hexp : tok.Expiry = now.Add maxInt64)
    (hn0 : 0 ≤ now.nsec) (hn1 : now.nsec < 1000000000)
    (hs0 : -9223372036854775808 ≤ now.sec)
    (hroom : now.sec + 9223372037 ≤ maxInt64)
    (hd0 : 0 ≤ d) (hd1 : d < maxInt64) :
    expiryReached (now.Add d) tok = false := by
  unfold maxInt64 at hroom hd1
  obtain ⟨he, he0, he1⟩ := Time.Add_total now maxInt64 hn0 hn1 hs0
    (by decide) (by decide) hroom
  obtain ⟨hd, hdn0, hdn1⟩ := Time.Add_total now d hn0 hn1 hs0 hd0 (by omega) hroom
  have hb : (now.Add d).Before (now.Add maxInt64) = true := by
    apply Time.Before_of_total_lt _ _ hdn0 hdn1 he0 he1
    rw [he, hd]
    unfold maxInt64
    omega
  simp [expiryReached, hexp, hb]

/-- A token of the pinned form is never due for refresh, at any instant. -/
theorem refreshDue_false_of_pinnedForm (t : Time) (tok : Token)
    (hp : tok.pinnedForm = true) : refreshDue t tok = false := by
  simp [refreshDue, hp]

/-- C1: for every start time `now`, every non-empty configured token and every
elapsed duration `d >= 0`, the token `Execute` hands to the client has
`ExpiresIn = math.MaxInt64` and `Expiry = now.Add(math.MaxInt64)`, so it is of
the pinned form, and the refresh check of the token store is false at
`now + d` and at every other instant: no refresh is attempted, regardless of
elapsed time.  While `d < math.MaxInt64` nanoseconds, from a start time whose
second count leaves room for the addition, the expiry itself is not reached
either. -/
theorem pinned_token_never_refreshed (now : Time) (config : Config)
    (profile : Profile) (d : Int)
    (hcfg : config.GlobalpingToken ≠ "") (hd0 : 0 ≤ d) :
    ∃ tok : Token, (Execute.setup now config profile).AuthToken = some tok
      ∧ tok.AccessToken = config.GlobalpingToken
      ∧ tok.ExpiresIn = maxInt64
      ∧ tok.Expiry = now.Add maxInt64
      ∧ tok.pinnedForm = true
      ∧ refreshDue (now.Add d) tok = false
      ∧ (∀ t : Time, refreshDue t tok = false)
      ∧ (0 ≤ now.nsec → now.nsec < 1000000000 →
          -9223372036854775808 ≤ now.sec → now.sec + 9223372037 ≤ maxInt64 →
          d < maxInt64 → expiryReached (now.Add d) tok = false) := by
  have hp : Token.pinnedForm ⟨config.GlobalpingToken, maxInt64, now.Add maxInt64⟩ = true := by
    simp [Token.pinnedForm]
  refine ⟨{ AccessToken := config.GlobalpingToken, ExpiresIn := maxInt64,
            Expiry := now.Add maxInt64 }, ?_, rfl, rfl, rfl, hp, ?_, ?_, ?_⟩
  · simp [Execute.setup, hcfg]
  · exact refreshDue_false_of_pinnedForm _ _ hp
  · intro t
    exact refreshDue_false_of_pinnedForm t _ hp
  · intro hn0 hn1 hs0 hroom hd1
    exact expiryReached_false_before_maxInt64 now _ d rfl hn0 hn1 hs0 hroom hd0 hd1

/-- C1 at a concrete input: started at the Unix epoch (62135596800 seconds
after year 1) with the configured token "secret", `math.MaxInt64`
nanoseconds later the instant equals the expiry, and the token, being of the
pinned form, is still not due for refresh. -/
theorem pinned_token_never_refreshed_witness :
    (⟨"secret", "", "", "", "", "", 500⟩ : Config).GlobalpingToken ≠ ""
      ∧ (0 : Int) ≤ maxInt64
      ∧ ∃ tok : Token,
        (Execute.setup (Time.mk 62135596800 0) ⟨"secret", "", "", "", "", "", 500⟩
          ⟨none⟩).AuthToken = some tok
        ∧ tok.pinnedForm = true
        ∧ expiryReached ((Time.mk 62135596800 0).Add maxInt64) tok = true
        ∧ refreshDue ((Time.mk 62135596800 0).Add maxInt64) tok = false := by
  obtain ⟨tok, hA, -, -, hexp, hp, hr, -, -⟩ :=
    pinned_token_never_refreshed (Time.mk 62135596800 0)
      ⟨"secret", "", "", "", "", "", 500⟩ ⟨none⟩ maxInt64 (by decide) (by decide)
  refine ⟨by decide, by decide, tok, hA, hp, ?_, hr⟩
  unfold expiryReached
  rw [hexp]
  decide

/-! ## The session history in the context -/

/-- Appending keeps the capacity. -/
theorem HistoryBuffer.Append_capacity (h : HistoryBuffer) (r : SessionRecord) :
    (h.Append r).capacity = h.capacity := by
  unfold HistoryBuffer.Append
  split_ifs <;> rfl

/-- Appending to a history of positive capacity that holds at most its
capacity leaves it holding at most its capacity. -/
theorem HistoryBuffer.Append_length_le (h : HistoryBuffer) (r : SessionRecord)
    (hpos : 0 < h.capacity) (hle : h.records.length ≤ h.capacity) :
    (h.Append r).records.length ≤ h.capacity := by
  unfold HistoryBuffer.Append
  split_ifs with hlt
  · simp only [List.length_append, List.length_singleton]
    omega
  · simp only [List.length_append, List.length_singleton, List.length_drop]
    omega

/-- Any run of appends keeps the capacity and the bound on the length. -/
theorem HistoryBuffer.foldl_Append_bounded (rs : List SessionRecord) :
    ∀ h : HistoryBuffer, 0 < h.capacity → h.records.length ≤ h.capacity →
      (rs.foldl HistoryBuffer.Append h).capacity = h.capacity
        ∧ (rs.foldl HistoryBuffer.Append h).records.length ≤ h.capacity := by
  induction rs with
  | nil => intro h _ hle; exact ⟨rfl, hle⟩
  | cons r rs ih =>
    intro h hpos hle
    have hc := HistoryBuffer.Append_capacity h r
    have hl := HistoryBuffer.Append_length_le h r hpos hle
    have := ih (h.Append r) (by omega) (by omega)
    simp only [List.foldl_cons]
    rw [hc] at this
    exact this

/-- C2: for every start time, configuration and profile, the history
`Execute` places in the context is `NewHistoryBuffer(10)`: it is empty, its
capacity is 10, and after any sequence of records appended by the commands of
the process its capacity is still 10 and it holds at most 10 records. -/
theorem execute_history_capacity_ten (now : Time) (config : Config) (profile : Profile) :
    (Execute.setup now config profile).ctx.History = NewHistoryBuffer 10
      ∧ (Execute.setup now config profile).ctx.History.capacity = 10
      ∧ (Execute.setup now config profile).ctx.History.records = []
      ∧ ∀ rs : List SessionRecord,
          (rs.foldl HistoryBuffer.Append
              (Execute.setup now config profile).ctx.History).capacity = 10
            ∧ (rs.foldl HistoryBuffer.Append
              (Execute.setup now config profile).ctx.History).records.length ≤ 10 := by
  refine ⟨rfl, rfl, rfl, ?_⟩
  intro rs
  exact HistoryBuffer.foldl_Append_bounded rs (NewHistoryBuffer 10) (by decide) (by decide)

/-! ## The token-refresh callback -/

/-- C7: for every refreshed token `t`, every storage behaviour `SaveConfig`
and every state, the callback leaves `profile.Token = t` and makes exactly one
`SaveConfig` call, which sees the profile with the new token already stored; if
that call succeeds the callback returns and writes nothing, and if it fails
with error `e` the callback writes "Error: failed to save config: e" and a
newline to the error writer, nothing to the out writer, and leaves the process
with status 1. -/
theorem onTokenRefresh_saves_or_exits (SaveConfig : Profile → Option String)
    (p : Process) (t : Option Token) :
    (Execute.OnTokenRefresh SaveConfig p t).2.profile.Token = t
      ∧ (Execute.OnTokenRefresh SaveConfig p t).2.saves
          = p.saves ++ [{ p.profile with Token := t }]
      ∧ (SaveConfig { p.profile with Token := t } = none →
          (Execute.OnTokenRefresh SaveConfig p t).1 = Outcome.returned
            ∧ (Execute.OnTokenRefresh SaveConfig p t).2.printer = p.printer)
      ∧ (∀ e : String, SaveConfig { p.profile with Token := t } = some e →
          (Execute.OnTokenRefresh SaveConfig p t).1 = Outcome.exit 1
            ∧ (Execute.OnTokenRefresh SaveConfig p t).2.printer.ErrWriter
                = p.printer.ErrWriter ++ ("Error: failed to save config: " ++ e ++ "\n")
            ∧ (Execute.OnTokenRefresh SaveConfig p t).2.printer.OutWriter
                = p.printer.OutWriter) := by
  cases hs : SaveConfig { p.profile with Token := t } with
  | none =>
    have hrun : Execute.OnTokenRefresh SaveConfig p t
        = (Outcome.returned,
            { profile := { p.profile with Token := t }, printer := p.printer,
              saves := p.saves ++ [{ p.profile with Token := t }] }) := by
      simp only [Execute.OnTokenRefresh, hs]
    rw [hrun]
    refine ⟨rfl, rfl, ?_, ?_⟩
    · intro _
      exact ⟨rfl, rfl⟩
    · intro e he
      cases he
  | some e0 =>
    have hrun : Execute.OnTokenRefresh SaveConfig p t
        = (Outcome.exit 1,
            { profile := { p.profile with Token := t },
              printer := p.printer.ErrPrintf ("Error: failed to save config: " ++ e0 ++ "\n"),
              saves := p.saves ++ [{ p.profile with Token := t }] }) := by
      simp only [Execute.OnTokenRefresh, hs]
    rw [hrun]
    refine ⟨rfl, rfl, ?_, ?_⟩
    · intro h
      cases h
    · intro e he
      cases he
      exact ⟨rfl, rfl, rfl⟩

/-- C7 at concrete inputs: with a storage that fails with "disk full" the
callback ends in exit status 1 with the message on the error writer, and with
a storage that succeeds it returns, the token stored and one save made. -/
theorem onTokenRefresh_saves_or_exits_witness :
    (Execute.OnTokenRefresh (fun _ => some "disk full")
        ⟨⟨none⟩, ⟨"", ""⟩, []⟩
        (some ⟨"new", 3600, Time.mk 63902912400 0⟩)).1 = Outcome.exit 1
      ∧ (Execute.OnTokenRefresh (fun _ => some "disk full")
        ⟨⟨none⟩, ⟨"", ""⟩, []⟩
        (some ⟨"new", 3600, Time.mk 63902912400 0⟩)).2.printer.ErrWriter
          = "Error: failed to save config: disk full\n"
      ∧ (Execute.OnTokenRefresh (fun _ => none)
        ⟨⟨none⟩, ⟨"", ""⟩, []⟩
        (some ⟨"new", 3600, Time.mk 63902912400 0⟩)).1 = Outcome.returned
      ∧ (Execute.OnTokenRefresh (fun _ => none)
        ⟨⟨none⟩, ⟨"", ""⟩, []⟩
        (some ⟨"new", 3600, Time.mk 63902912400 0⟩)).2.saves
          = [⟨some ⟨"new", 3600, Time.mk 63902912400 0⟩⟩] := by
  have hfail := onTokenRefresh_saves_or_exits (fun _ => some "disk full")
    ⟨⟨none⟩, ⟨"", ""⟩, []⟩ (some ⟨"new", 3600, Time.mk 63902912400 0⟩)
  have hok := onTokenRefresh_saves_or_exits (fun _ => none)
    ⟨⟨none⟩, ⟨"", ""⟩, []⟩ (some ⟨"new", 3600, Time.mk 63902912400 0⟩)
  obtain ⟨h1, h2⟩ := hfail.2.2.2 "disk full" rfl
  exact ⟨h1, by rw [h2.1]; decide, (hok.2.2.1 rfl).1, hok.2.1⟩

/-! ## The defaults of the flags -/

/-- The flags `NewRoot` registers, in order: name, default, target field, and
whether the usage ends in "(default false)". -/
theorem NewRoot_flags (printer : Printer) (ctx : Context) :
    (NewRoot printer ctx).flags.map (fun f => (f.Name, f.DefValue, f.target,
        usageEndsWith f.Usage "(default false)"))
      = [("ci", ctx.get .CIMode, .CIMode, true),
         ("from", ctx.get .From, .From, false),
         ("limit", ctx.get .Limit, .Limit, false),
         ("json", ctx.get .ToJSON, .ToJSON, true),
         ("latency", ctx.get .ToLatency, .ToLatency, true),
         ("share", ctx.get .Share, .Share, true),
         ("ipv4", ctx.get .Ipv4, .Ipv4, false),
         ("ipv6", ctx.get .Ipv6, .Ipv6, false)] := by
  cases ctx
  rfl

/-- The registrations of `NewRoot` store each field's own value, so they leave
the context as it was. -/
theorem NewRoot_ctx (printer : Printer) (ctx : Context) :
    (NewRoot printer ctx).ctx = ctx := by
  cases ctx
  rfl

/-- C8: with the context `Execute` builds, after `NewRoot` and the parsing of
an empty list of flags, `From` is "world", `Limit` is 1 and `CIMode`,
`ToJSON`, `ToLatency`, `Share`, `Ipv4`, `Ipv6` are false; for every context,
`NewRoot` leaves the context as it is and registers the flags ci, from, limit, json, latency, share, ipv4, ipv6,
each with the value its context field has at registration as its default; and
every flag whose usage ends in "(default false)" has the default false. -/
theorem defaults_without_flags (now : Time) (config : Config) (profile : Profile)
    (printer : Printer) :
    ((NewRoot printer (Execute.setup now config profile).ctx).parseFlags []).ctx.From = "world"
      ∧ ((NewRoot printer (Execute.setup now config profile).ctx).parseFlags []).ctx.Limit = 1
      ∧ ((NewRoot printer (Execute.setup now config profile).ctx).parseFlags []).ctx.CIMode
          = false
      ∧ ((NewRoot printer (Execute.setup now config profile).ctx).parseFlags []).ctx.ToJSON
          = false
      ∧ ((NewRoot printer (Execute.setup now config profile).ctx).parseFlags []).ctx.ToLatency
          = false
      ∧ ((NewRoot printer (Execute.setup now config profile).ctx).parseFlags []).ctx.Share
          = false
      ∧ ((NewRoot printer (Execute.setup now config profile).ctx).parseFlags []).ctx.Ipv4
          = false
      ∧ ((NewRoot printer (Execute.setup now config profile).ctx).parseFlags []).ctx.Ipv6
          = false
      ∧ (∀ ctx : Context,
          (NewRoot printer ctx).ctx = ctx
            ∧ (NewRoot printer ctx).flags.map (fun f => f.Name)
              = ["ci", "from", "limit", "json", "latency", "share", "ipv4", "ipv6"]
            ∧ ∀ f ∈ (NewRoot printer ctx).flags, f.DefValue = ctx.get f.target)
      ∧ (∀ f ∈ (NewRoot printer (Execute.setup now config profile).ctx).flags,
          usageEndsWith f.Usage "(default false)" = true → f.DefValue = FlagValue.bool false)
      ∧ (NewRoot printer (Execute.setup now config profile).ctx).flags.filterMap
          (fun f => if usageEndsWith f.Usage "(default false)" then some f.Name else none)
          = ["ci", "json", "latency", "share"] := by
  have hctx := NewRoot_ctx printer (Execute.setup now config profile).ctx
  have hparse : ((NewRoot printer (Execute.setup now config profile).ctx).parseFlags []).ctx
      = (Execute.setup now config profile).ctx := by
    simp only [Root.parseFlags, List.foldl_nil, hctx]
  rw [hparse]
  refine ⟨rfl, rfl, rfl, rfl, rfl, rfl, rfl, rfl, ?_, ?_, ?_⟩
  · intro ctx
    refine ⟨NewRoot_ctx printer ctx, rfl, ?_⟩
    intro f hf
    have hm := List.mem_map_of_mem (fun f : Flag => (f.Name, f.DefValue, f.target,
        usageEndsWith f.Usage "(default false)")) hf
    rw [NewRoot_flags] at hm
    simp only [List.mem_cons, Prod.mk.injEq, List.mem_singleton, List.not_mem_nil,
      or_false] at hm
    rcases hm with ⟨-, h1, h2, -⟩ | ⟨-, h1, h2, -⟩ | ⟨-, h1, h2, -⟩ | ⟨-, h1, h2, -⟩
      | ⟨-, h1, h2, -⟩ | ⟨-, h1, h2, -⟩ | ⟨-, h1, h2, -⟩ | ⟨-, h1, h2, -⟩ <;>
      rw [h1, h2]
  · intro f hf hu
    have hm := List.mem_map_of_mem (fun f : Flag => (f.Name, f.DefValue, f.target,
        usageEndsWith f.Usage "(default false)")) hf
    rw [NewRoot_flags] at hm
    simp only [List.mem_cons, Prod.mk.injEq, List.mem_singleton, List.not_mem_nil,
      or_false] at hm
    rcases hm with ⟨-, h1, -, h3⟩ | ⟨-, h1, -, h3⟩ | ⟨-, h1, -, h3⟩ | ⟨-, h1, -, h3⟩
      | ⟨-, h1, -, h3⟩ | ⟨-, h1, -, h3⟩ | ⟨-, h1, -, h3⟩ | ⟨-, h1, -, h3⟩ <;>
      first
        | (rw [h1]; rfl)
        | (rw [hu] at h3; cases h3)
  · rfl

/-- C8 at a concrete input: the flag `--limit 5` changes `Limit` from its
default 1 to 5 and leaves `From` at "world", so the defaults above are the
values of a run without flags and not constants of the model. -/
theorem defaults_without_flags_witness :
    ((NewRoot ⟨"", ""⟩ (Execute.setup (Time.mk 63902908800 0)
        ⟨"", "", "", "", "", "", 500⟩ ⟨none⟩).ctx).parseFlags []).ctx.Limit = 1
      ∧ ((NewRoot ⟨"", ""⟩ (Execute.setup (Time.mk 63902908800 0)
        ⟨"", "", "", "", "", "", 500⟩ ⟨none⟩).ctx).parseFlags
          [("limit", FlagValue.int 5)]).ctx.Limit = 5
      ∧ ((NewRoot ⟨"", ""⟩ (Execute.setup (Time.mk 63902908800 0)
        ⟨"", "", "", "", "", "", 500⟩ ⟨none⟩).ctx).parseFlags
          [("limit", FlagValue.int 5)]).ctx.From = "world" :=
  ⟨(defaults_without_flags (Time.mk 63902908800 0) ⟨"", "", "", "", "", "", 500⟩ ⟨none⟩
      ⟨"", ""⟩).2.1,
    by rfl, by rfl⟩

/-! ## `version` -/

/-- C9: for every command and argument list, `RunVersion` writes exactly
"Globalping CLI v", the value of `version.Version` and a newline to the out
writer and nothing to the error writer; `main` sets `version.Version` to its
variable `version`, which is "dev" without a build override, and the line
written is then "Globalping CLI vdev". -/
theorem runVersion_prints_version (r : Root) (pkg : PkgVersion) (cmd : Command)
    (args : List String) :
    (r.RunVersion pkg cmd args).printer.OutWriter
        = r.printer.OutWriter ++ ("Globalping CLI v" ++ pkg.Version ++ "\n")
      ∧ (r.RunVersion pkg cmd args).printer.ErrWriter = r.printer.ErrWriter
      ∧ (r.RunVersion pkg cmd args).ctx = r.ctx
      ∧ (∀ o : Option String, (main.setVersion o pkg).Version = main.version o)
      ∧ (∀ v : String, main.version (some v) = v)
      ∧ main.version none = "dev"
      ∧ (r.RunVersion (main.setVersion none pkg) cmd args).printer.OutWriter
          = r.printer.OutWriter ++ "Globalping CLI vdev\n" := by
  refine ⟨?_, rfl, rfl, fun _ => rfl, fun _ => rfl, rfl, ?_⟩
  · simp only [Root.RunVersion, Printer.Println, String.append_assoc]
  · simp only [Root.RunVersion, Printer.Println, main.setVersion, main.version,
      String.append_assoc]
    rfl

/-! ## `wrappedFlagUsages` -/

/-- C10, as stated, fails: when the terminal size cannot be determined the
usages are wrapped at 79 columns and not at 80, and on a terminal of 120
columns they are wrapped at 119. -/
theorem wrappedFlagUsages_width_counterexample :
    (¬ ∀ (GetSize : Except String (Int × Int))
        (FlagUsagesWrapped : List Flag → Int → String) (cmd : List Flag),
        wrappedFlagUsages GetSize FlagUsagesWrapped cmd
          = FlagUsagesWrapped cmd (claimedWrapColumn GetSize))
    ∧ wrappedFlagUsages (Except.error "not a terminal")
        (fun _ cols => if cols = 80 then "80" else if cols = 79 then "79" else "") []
        = "79"
    ∧ wrappedFlagUsages (Except.ok (120, 40))
        (fun _ cols => if cols = 120 then "120" else if cols = 119 then "119" else "") []
        = "119" := by
  refine ⟨?_, by decide, by decide⟩
  intro h
  have h1 := h (Except.error "not a terminal")
    (fun _ cols => if cols = 80 then "80" else if cols = 79 then "79" else "") []
  revert h1
  decide

/-- C10, amended: `wrappedFlagUsages` has `pflag` wrap the flag usages at one
column less than the terminal width when the terminal size can be determined,
and at 79 columns (80 less one) when it cannot. -/
theorem wrappedFlagUsages_wraps_one_short
    (FlagUsagesWrapped : List Flag → Int → String) (cmd : List Flag) :
    (∀ (termWidth termHeight : Int),
        wrappedFlagUsages (Except.ok (termWidth, termHeight)) FlagUsagesWrapped cmd
          = FlagUsagesWrapped cmd (termWidth - 1))
      ∧ (∀ err : String,
        wrappedFlagUsages (Except.error err) FlagUsagesWrapped cmd
          = FlagUsagesWrapped cmd 79)
      ∧ (∀ GetSize : Except String (Int × Int),
        wrappedFlagUsages GetSize FlagUsagesWrapped cmd
          = FlagUsagesWrapped cmd (claimedWrapColumn GetSize - 1)) := by
  refine ⟨fun _ _ => rfl, fun _ => rfl, ?_⟩
  intro GetSize
  cases GetSize with
  | error e => rfl
  | ok sz => rfl

/-! ## The auth token handed to the client -/

/-- An allocation leaves every token that was already there in place. -/
theorem TokenHeap.deref_new_of_valid (h : TokenHeap) (t : Token) (p : Option Nat)
    (hp : h.valid p = true) : (h.new t).1.deref p = h.deref p := by
  cases p with
  | none => rfl
  | some a =>
    have ha : a < h.cells.length := by simpa [TokenHeap.valid] using hp
    simp only [TokenHeap.new, TokenHeap.deref]
    exact List.getElem?_append_left ha

/-- The pointer an allocation returns refers to the new token. -/
theorem TokenHeap.deref_new (h : TokenHeap) (t : Token) :
    (h.new t).1.deref (some (h.new t).2) = some t := by
  simp [TokenHeap.new, TokenHeap.deref]

/-- C11: for every start time, configuration and stored profile token (a nil
or allocated pointer), the auth token `Execute` hands to the client is the
pointer `profile.Token` exactly when `config.GlobalpingToken` is empty, and
then no token is allocated or changed; for a non-empty configured token it is a
newly allocated token with `AccessToken` the configured token, `ExpiresIn =
math.MaxInt64` and `Expiry = now.Add(math.MaxInt64)`, whatever the profile
token is, which stays as it was; in both cases the token's value is the one
`Execute.setup` gives. -/
theorem authToken_is_profile_token_iff_config_empty (now : Time) (config : Config)
    (heap : TokenHeap) (profileToken : Option Nat)
    (hvalid : heap.valid profileToken = true) :
    ((Execute.authToken now config heap profileToken).2 = profileToken
        ↔ config.GlobalpingToken = "")
      ∧ (config.GlobalpingToken = "" →
          (Execute.authToken now config heap profileToken).1 = heap)
      ∧ (config.GlobalpingToken ≠ "" →
          (Execute.authToken now config heap profileToken).2 = some heap.cells.length
            ∧ (Execute.authToken now config heap profileToken).1.deref
                (Execute.authToken now config heap profileToken).2
                = some { AccessToken := config.GlobalpingToken
                         ExpiresIn := maxInt64
                         Expiry := now.Add maxInt64 }
            ∧ (Execute.authToken now config heap profileToken).1.deref profileToken
                = heap.deref profileToken)
      ∧ (Execute.authToken now config heap profileToken).1.deref
            (Execute.authToken now config heap profileToken).2
          = (Execute.setup now config { Token := heap.deref profileToken }).AuthToken := by
  by_cases hcfg : config.GlobalpingToken = ""
  · have hrun : Execute.authToken now config heap profileToken = (heap, profileToken) := by
      simp [Execute.authToken, hcfg]
    rw [hrun]
    refine ⟨?_, ?_, ?_, ?_⟩
    · exact ⟨fun _ => hcfg, fun _ => rfl⟩
    · intro _; rfl
    · intro hne; exact absurd hcfg hne
    · simp [Execute.setup, hcfg]
  · have hrun : Execute.authToken now config heap profileToken
        = ((heap.new { AccessToken := config.GlobalpingToken
                       ExpiresIn := maxInt64
                       Expiry := now.Add maxInt64 }).1,
           some (heap.new { AccessToken := config.GlobalpingToken
                            ExpiresIn := maxInt64
                            Expiry := now.Add maxInt64 }).2) := by
      simp [Execute.authToken, hcfg]
    rw [hrun]
    refine ⟨?_, ?_, ?_, ?_⟩
    · constructor
      · intro heq
        exfalso
        cases profileToken with
        | none => cases heq
        | some a =>
          have ha : a < heap.cells.length := by simpa [TokenHeap.valid] using hvalid
          have hfresh : heap.cells.length = a := by
            simpa [TokenHeap.new] using heq
          omega
      · intro h; exact absurd h hcfg
    · intro h; exact absurd h hcfg
    · intro _
      exact ⟨rfl, TokenHeap.deref_new heap _, TokenHeap.deref_new_of_valid heap _ _ hvalid⟩
    · rw [TokenHeap.deref_new]
      simp [Execute.setup, hcfg]

/-- C11 at a concrete input: the profile token at address 0 already has the
very contents of the token built for the configured token "secret"; the token
handed to the client is still a new one, at address 1, with the same value,
and the profile token stays at address 0. -/
theorem authToken_is_profile_token_iff_config_empty_witness :
    TokenHeap.valid
        ⟨[⟨"secret", maxInt64, (Time.mk 63902908800 0).Add maxInt64⟩]⟩ (some 0) = true
      ∧ ((Execute.authToken (Time.mk 63902908800 0) ⟨"secret", "", "", "", "", "", 500⟩
            ⟨[⟨"secret", maxInt64, (Time.mk 63902908800 0).Add maxInt64⟩]⟩ (some 0)).2
            = some 0 ↔ "secret" = "")
      ∧ (Execute.authToken (Time.mk 63902908800 0) ⟨"secret", "", "", "", "", "", 500⟩
            ⟨[⟨"secret", maxInt64, (Time.mk 63902908800 0).Add maxInt64⟩]⟩ (some 0)).2
            = some 1
      ∧ (Execute.authToken (Time.mk 63902908800 0) ⟨"", "", "", "", "", "", 500⟩
            ⟨[⟨"secret", maxInt64, (Time.mk 63902908800 0).Add maxInt64⟩]⟩ (some 0)).2
            = some 0 :=
  ⟨by decide,
    (authToken_is_profile_token_iff_config_empty (Time.mk 63902908800 0)
      ⟨"secret", "", "", "", "", "", 500⟩
      ⟨[⟨"secret", maxInt64, (Time.mk 63902908800 0).Add maxInt64⟩]⟩ (some 0)
      (by decide)).1,
    by decide, by decide⟩

end Globalping
